import Mathlib

/-!
Verification development for the Trivago feed-sync script (`sync_feed.py`).

The script downloads a gzip-compressed CSV feed, reads it in chunks with
`pandas.read_csv(..., on_bad_lines='skip')`, normalises each chunk with
`clean_dataframe`, converts the rows to records, and upserts them to a
Supabase table in batches of `BATCH_SIZE` keyed on `aw_product_id`; any
batch exception sets a `has_errors` flag, and the process exits with code 1
when the download status is not 200, when reading raises, or when any batch
failed, and with code 0 otherwise.  The script never deletes anything from
the store and stamps no watermark on records.

The embedding below models cell values, dataframes, the CSV reader (blank
lines skipped and all-blank input fatal; header line split on commas; a
first data row longer than the header supplies implicit index columns and
is kept; data lines wider than header plus index skipped, shorter lines
padded with NaN, empty fields read as NaN), `clean_dataframe`
(infinity to NaN, `pd.to_numeric(errors='coerce')` on the
`Travel:destination_zipcode` column, NaN to SQL NULL, header stripping),
and `sync_data` as a function from a run input (HTTP status, decoded feed
lines, one store outcome per upsert call) to a run result (the trace of
store actions, the `total_uploaded` counter, the `has_errors` flag and the
process exit code).  Numeric cell values are modelled as integers: the
properties at stake concern whitespace handling and parse failure, not
decimal arithmetic.  Store semantics for `upsert(..., on_conflict=key)`
are modelled over a list of records: a record whose key matches an existing
non-null key replaces that row, otherwise the record is appended (null keys
never conflict).
-/

/-- Cell value of a dataframe: a raw string, an integral number, a signed
infinity, a missing value (NaN) and the SQL NULL that `clean_dataframe`
substitutes for NaN. -/
inductive Value where
  | str (s : String)
  | num (n : Int)
  | inf (pos : Bool)
  | nan
  | null
deriving DecidableEq, Repr

/-- A record as produced by `df.to_dict(orient='records')`: an association
list from column name to cell value. -/
abbrev Rec := List (String × Value)

/-- A pandas dataframe: column names plus rows of cells (each row has one
cell per column). -/
structure DataFrame where
  cols : List String
  rows : List (List Value)
deriving DecidableEq, Repr

/-- Configured batch size of the script. -/
def BATCH_SIZE : Nat := 1000

/-- Configured chunk size of the script's CSV reader. -/
def CHUNK_SIZE : Nat := 5000

/-- Target table of the script. -/
def TABLE_NAME : String := "Trivago Hotels"

/-- Conflict key column of the script's upsert. -/
def UNIQUE_KEY : String := "aw_product_id"

/-- Drop leading whitespace characters of a character list. -/
def dropSpaces (l : List Char) : List Char := l.dropWhile Char.isWhitespace

/-- Strip leading and trailing whitespace from a character list, as Python's
`str.strip` and the whitespace tolerance of numeric parsing do. -/
def trimChars (l : List Char) : List Char :=
  ((dropSpaces l).reverse.dropWhile Char.isWhitespace).reverse

/-- Value of a decimal digit string. -/
def digitsToNat (l : List Char) : Nat :=
  l.foldl (fun a c => a * 10 + (c.toNat - 48)) 0

/-- Parse an optionally signed decimal integer from an already trimmed
character list; any other content fails. -/
def parseNumChars : List Char → Option Int
  | [] => none
  | c :: rest =>
    if c = '-' then
      if rest ≠ [] ∧ rest.all Char.isDigit then some (-(digitsToNat rest : Int)) else none
    else if c = '+' then
      if rest ≠ [] ∧ rest.all Char.isDigit then some ((digitsToNat rest : Int)) else none
    else if (c :: rest).all Char.isDigit then some ((digitsToNat (c :: rest) : Int))
    else none

/-- Numeric parsing as `pd.to_numeric` applies it to one string: surrounding
whitespace is tolerated, anything else non-numeric fails. -/
def parseNumber (s : String) : Option Int := parseNumChars (trimChars s.data)

/-- Python's `str.strip`, modelled on the string's characters. -/
def strip (s : String) : String := String.mk (trimChars s.data)

/-- Split a line on the comma delimiter (`sep=','`). -/
def splitFields : List Char → List (List Char)
  | [] => [[]]
  | c :: rest =>
    if c = ',' then [] :: splitFields rest
    else
      match splitFields rest with
      | [] => [[c]]
      | f :: fs => (c :: f) :: fs

/-- Fields of one CSV line. -/
def parseLine (s : String) : List String := (splitFields s.data).map String.mk

/-- Cell read by the CSV reader: an empty field is a missing value. -/
def cellValue (s : String) : Value := if s = "" then Value.nan else Value.str s

/-- Step 1 of `clean_dataframe`: `df.replace([np.inf, -np.inf], np.nan)`. -/
def dropInf : Value → Value
  | Value.inf _ => Value.nan
  | v => v

/-- Step 3 of `clean_dataframe`: `df.where(pd.notnull(df), None)` turns every
NaN into SQL NULL. -/
def nanToNull : Value → Value
  | Value.nan => Value.null
  | v => v

/-- Per-cell behaviour of `pd.to_numeric(column, errors='coerce')`: strings
are parsed (failures become NaN), numbers are kept, NaN stays NaN and a
Python `None` coerces to NaN. -/
def to_numeric : Value → Value
  | Value.str s =>
    match parseNumber s with
    | some n => Value.num n
    | none => Value.nan
  | Value.num n => Value.num n
  | Value.inf b => Value.inf b
  | Value.nan => Value.nan
  | Value.null => Value.nan

/-- The zipcode column that `clean_dataframe` coerces. -/
def ZIP_COL : String := "Travel:destination_zipcode"

/-- The `clean_dataframe` function of `sync_feed.py`: replace infinities by
NaN, coerce the `Travel:destination_zipcode` column to numeric with errors
becoming NaN, replace every NaN by NULL, and strip whitespace from the
column headers. -/
def clean_dataframe (df : DataFrame) : DataFrame :=
  let rows1 := df.rows.map (List.map dropInf)
  let rows2 :=
    if ZIP_COL ∈ df.cols then
      let zi := df.cols.findIdx (fun c => c = ZIP_COL)
      rows1.map (fun row => row.mapIdx (fun j v => if j = zi then to_numeric v else v))
    else rows1
  let rows3 := rows2.map (List.map nanToNull)
  { cols := df.cols.map strip, rows := rows3 }

/-- Number of implicit index columns pandas infers: when the first data row
after the header has more fields than the header has names, the extra
leading fields become the row index (one level per extra field); otherwise
there is no implicit index.  `n` is the header's field count. -/
def indexWidth (n : Nat) : List String → Nat
  | [] => 0
  | first :: _ => (parseLine first).length - n

/-- The CSV read (`pd.read_csv(..., sep=',', on_bad_lines='skip')`) on the
decoded lines of the feed.  Blank lines are skipped (`skip_blank_lines`
default); input with no non-blank line raises `EmptyDataError` (modelled as
`none`, caught by the script's outer handler).  The first non-blank line is
the header.  When the first data row is longer than the header, pandas uses
the extra leading fields as the implicit row index: such a row is kept, and
the expected width of every row becomes header plus index.  A data line
with more fields than that expected width is a bad line and is skipped; a
shorter line is padded with missing values.  The row cells kept here are
the named columns only (the implicit index fields are dropped), matching
what `df.to_dict(orient='records')` later hands to the upsert, which never
includes the index.  Quoting and duplicate-header mangling are not
modelled: fields are split on every comma and header names kept as-is. -/
def read_csv (lines : List String) : Option DataFrame :=
  match lines.filter (fun l => l != "") with
  | [] => none
  | h :: rest =>
    let cols := parseLine h
    let n := cols.length
    let k := indexWidth n rest
    some
      { cols := cols
        rows := rest.filterMap (fun l =>
          let fs := parseLine l
          if fs.length > n + k then none
          else some ((fs.map cellValue ++ List.replicate (n + k - fs.length) Value.nan).drop k)) }

/-- Worker for `chunksOf`: walks the input keeping the current chunk in
reverse together with its remaining capacity, flushing when full. -/
def chunksOfGo (n : Nat) : List α → List α → Nat → List (List α)
  | [], acc, _ => if acc.isEmpty then [] else [acc.reverse]
  | x :: xs, acc, 0 => acc.reverse :: chunksOfGo n xs [x] (n - 1)
  | x :: xs, acc, Nat.succ c => chunksOfGo n xs (x :: acc) c

/-- Split a list into consecutive chunks of `n` elements (the last chunk may
be shorter), as the `chunksize=` reader and the `records[i:i + BATCH_SIZE]`
slicing both do. -/
def chunksOf (n : Nat) (l : List α) : List (List α) := chunksOfGo n l [] n

/-- The `df.to_dict(orient='records')` conversion: one association list per
row, pairing each column name with its cell. -/
def toRecords (df : DataFrame) : List Rec := df.rows.map df.cols.zip

/-- Outcome of one `upsert(...).execute()` call against the store, as the
script observes it: success, or an exception (the script does not
distinguish between transient and permanent causes — both land in the same
`except` branch). -/
inductive UpsertOutcome where
  | success
  | transientError
  | permanentError
deriving DecidableEq, Repr

/-- Whether an outcome is a success. -/
def UpsertOutcome.isSuccess : UpsertOutcome → Bool
  | UpsertOutcome.success => true
  | _ => false

/-- One call the script can place against the store.  The `purge` action
(a conditional delete of stale rows) exists at the store interface but is
never issued by `sync_feed.py`; its constructor is here so its absence from
a run's trace is a statable property. -/
inductive StoreAction where
  | upsert (batch : List Rec) (ok : Bool)
  | purge
deriving DecidableEq, Repr

/-- Look up the value of a column in a record. -/
def lookupField (r : Rec) (c : String) : Option Value :=
  (r.find? (fun p => p.1 = c)).map Prod.snd

/-- Conflict key of a record: the value of the `aw_product_id` column, with
SQL NULL treated as keyless (null values never conflict under a unique
constraint). -/
def recKey (r : Rec) : Option Value :=
  match lookupField r UNIQUE_KEY with
  | some Value.null => none
  | some v => some v
  | none => none

/-- Upsert of one record with `on_conflict = aw_product_id`: replace the
rows carrying the same non-null key, or append when no row matches (or when
the key is null). -/
def upsertRecord (store : List Rec) (r : Rec) : List Rec :=
  match recKey r with
  | none => store ++ [r]
  | some k =>
    if store.any (fun s => decide (recKey s = some k)) then
      store.map (fun s => if recKey s = some k then r else s)
    else store ++ [r]

/-- Upsert of a whole batch, record by record. -/
def upsertBatch (store : List Rec) (b : List Rec) : List Rec :=
  b.foldl upsertRecord store

/-- Effect of one traced action on the store: a successful upsert applies
the batch, a failed one leaves the store unchanged; no purge action is ever
emitted by the script, so `purge` is a no-op of the model. -/
def applyAction (store : List Rec) : StoreAction → List Rec
  | StoreAction.upsert b true => upsertBatch store b
  | StoreAction.upsert _ false => store
  | StoreAction.purge => store

/-- Replay a trace of store actions on an initial store. -/
def applyTrace (store : List Rec) (tr : List StoreAction) : List Rec :=
  tr.foldl applyAction store

/-- Input of one run of `sync_data`: the HTTP status of the feed download,
the decoded lines of the feed, and the store's outcome for each upsert call
in order (calls beyond the list succeed). -/
structure RunInput where
  status : Nat
  feed : List String
  outcomes : List UpsertOutcome
deriving DecidableEq, Repr

/-- Result of one run: the trace of store calls, the script's
`total_uploaded` counter, its `has_errors` flag, and the process exit
code. -/
structure RunResult where
  trace : List StoreAction
  total_uploaded : Nat
  has_errors : Bool
  exitCode : Nat
deriving DecidableEq, Repr

/-- Mutable state threaded through the processing loop. -/
structure ProcState where
  trace : List StoreAction
  total : Nat
  has_errors : Bool
  pending : List UpsertOutcome
deriving DecidableEq, Repr

/-- Pop the next store outcome; an exhausted list means success. -/
def takeOutcome : List UpsertOutcome → UpsertOutcome × List UpsertOutcome
  | [] => (UpsertOutcome.success, [])
  | o :: rest => (o, rest)

/-- Body of the inner batch loop: one upsert call in a `try`/`except` that
sets `has_errors` on any exception and always moves on to the next batch. -/
def runBatch (st : ProcState) (b : List Rec) : ProcState :=
  let p := takeOutcome st.pending
  { trace := st.trace ++ [StoreAction.upsert b p.1.isSuccess]
    total := st.total
    has_errors := st.has_errors || !p.1.isSuccess
    pending := p.2 }

/-- Body of the chunk loop: clean the chunk, convert it to records, upsert
it in slices of `BATCH_SIZE`, then add the chunk's record count to
`total_uploaded`. -/
def runChunk (st : ProcState) (df : DataFrame) : ProcState :=
  let records := toRecords (clean_dataframe df)
  let st1 := (chunksOf BATCH_SIZE records).foldl runBatch st
  { st1 with total := st1.total + records.length }

/-- The `sync_data` function of `sync_feed.py`: exit 1 when the download
status is not 200 (before reading anything); exit 1 when the CSV read
raises; otherwise process every chunk, and exit 1 exactly when some batch
errored, else exit 0.  Environment-variable and client-construction
failures, which also exit 1 before any download, are outside the modelled
input space. -/
def sync_data (inp : RunInput) : RunResult :=
  if inp.status ≠ 200 then
    { trace := [], total_uploaded := 0, has_errors := false, exitCode := 1 }
  else
    match read_csv inp.feed with
    | none => { trace := [], total_uploaded := 0, has_errors := false, exitCode := 1 }
    | some df =>
      let chunks := (chunksOf CHUNK_SIZE df.rows).map (DataFrame.mk df.cols)
      let st := chunks.foldl runChunk { trace := [], total := 0, has_errors := false, pending := inp.outcomes }
      { trace := st.trace
        total_uploaded := st.total
        has_errors := st.has_errors
        exitCode := if st.has_errors then 1 else 0 }

/-- Records obtained from one chunk after cleaning. -/
def chunkRecs (df : DataFrame) : List Rec := toRecords (clean_dataframe df)

/-- All batches the script forms for a list of chunks, in order: each chunk's
cleaned records sliced into `BATCH_SIZE` groups. -/
def chunkBatches (cs : List DataFrame) : List (List Rec) :=
  (cs.map (fun df => chunksOf BATCH_SIZE (chunkRecs df))).flatten

/-- All cleaned records of a list of chunks, in order. -/
def chunkRecordsList (cs : List DataFrame) : List Rec :=
  (cs.map chunkRecs).flatten

/-- The chunks the reader yields for a decoded dataframe. -/
def mkChunks (df : DataFrame) : List DataFrame :=
  (chunksOf CHUNK_SIZE df.rows).map (DataFrame.mk df.cols)

/-- All batches a run input gives rise to (empty when the read fails). -/
def allBatches (inp : RunInput) : List (List Rec) :=
  match read_csv inp.feed with
  | none => []
  | some df => chunkBatches (mkChunks df)

/-- All cleaned records a run input gives rise to. -/
def feedRecords (inp : RunInput) : List Rec :=
  match read_csv inp.feed with
  | none => []
  | some df => chunkRecordsList (mkChunks df)

/-- Non-null conflict keys occurring among a list of records. -/
def feedKeys (rs : List Rec) : List Value := rs.filterMap recKey

/-- The batch payloads of a trace, dropping the success flags. -/
def traceBatches (tr : List StoreAction) : List (List Rec) :=
  tr.filterMap (fun a =>
    match a with
    | StoreAction.upsert b _ => some b
    | StoreAction.purge => none)

/-- Expected trace for a batch list given the store's pending outcomes: one
upsert action per batch, flagged with that batch's outcome. -/
def ok_trace (p : List UpsertOutcome) : List (List Rec) → List StoreAction
  | [] => []
  | b :: bs =>
    StoreAction.upsert b (takeOutcome p).1.isSuccess :: ok_trace (takeOutcome p).2 bs

/-- Whether any of the first `n` pending outcomes is a failure. -/
def errsIn (p : List UpsertOutcome) (n : Nat) : Bool :=
  (p.take n).any (fun o => !o.isSuccess)

/-- Number of store rows carrying the given non-null conflict key. -/
def countKey (store : List Rec) (k : Value) : Nat :=
  store.countP (fun s => decide (recKey s = some k))

/-- A store is key-unique when no non-null conflict key occurs on two rows. -/
def UniqueKeys (store : List Rec) : Prop :=
  ∀ k : Value, countKey store k ≤ 1

example : parseNumber " 123 " = some 123 := by decide
example : parseNumber "1 234" = none := by decide
example : parseNumber "-42" = some (-42) := by decide
example : parseNumber "SW1A 1AA" = none := by decide
example : parseLine "a,b,c" = ["a", "b", "c"] := by decide
example : read_csv ["k,v", "1,x", "2,y,z"] =
    some { cols := ["k", "v"], rows := [[Value.str "1", Value.str "x"]] } := by decide
example : read_csv ["a", "1,2", "3,4"] =
    some { cols := ["a"], rows := [[Value.str "2"], [Value.str "4"]] } := by decide
example : read_csv ["", "k,v", "1,x"] =
    some { cols := ["k", "v"], rows := [[Value.str "1", Value.str "x"]] } := by decide
example : read_csv ["", ""] = none := by decide
example : chunksOf 2 [1, 2, 3, 4, 5] = [[1, 2], [3, 4], [5]] := by decide
example :
    sync_data { status := 200, feed := ["aw_product_id,city", "1,london"], outcomes := [] } =
      { trace := [StoreAction.upsert [[("aw_product_id", Value.str "1"), ("city", Value.str "london")]] true]
        total_uploaded := 1
        has_errors := false
        exitCode := 0 } := by decide
example :
    sync_data { status := 404, feed := ["aw_product_id,city", "1,london"], outcomes := [] } =
      { trace := [], total_uploaded := 0, has_errors := false, exitCode := 1 } := by decide

/-- Flattening the chunks reproduces the input list, whatever the capacity
state of the worker. -/
theorem chunksOfGo_flatten (n : Nat) (xs acc : List α) (c : Nat) :
    (chunksOfGo n xs acc c).flatten = acc.reverse ++ xs := by
  induction xs generalizing acc c with
  | nil =>
    by_cases h : acc = []
    · subst h; simp [chunksOfGo]
    · simp [chunksOfGo, List.isEmpty_iff, h]
  | cons x xs ih =>
    cases c with
    | zero => simp [chunksOfGo, ih]
    | succ c => simp [chunksOfGo, ih]

/-- Chunking then flattening is the identity. -/
theorem chunksOf_flatten (n : Nat) (l : List α) : (chunksOf n l).flatten = l := by
  simp [chunksOf, chunksOfGo_flatten]

/-- The leftover outcomes after popping once are the tail. -/
theorem takeOutcome_snd (p : List UpsertOutcome) : (takeOutcome p).2 = p.tail := by
  cases p <;> rfl

/-- The expected trace of an appended batch list splits into the two
expected traces, the second starting after the first's outcomes. -/
theorem ok_trace_append (p : List UpsertOutcome) (bs1 bs2 : List (List Rec)) :
    ok_trace p (bs1 ++ bs2) = ok_trace p bs1 ++ ok_trace (p.drop bs1.length) bs2 := by
  induction bs1 generalizing p with
  | nil => simp [ok_trace]
  | cons b bs1 ih =>
    cases p with
    | nil => simp [ok_trace, takeOutcome, ih]
    | cons o rest => simp [ok_trace, takeOutcome, ih]

/-- Nothing in the first zero outcomes can fail. -/
theorem errsIn_zero (p : List UpsertOutcome) : errsIn p 0 = false := by
  simp [errsIn]

/-- Error detection over a split range of outcomes. -/
theorem errsIn_add (p : List UpsertOutcome) (m n : Nat) :
    errsIn p (m + n) = (errsIn p m || errsIn (p.drop m) n) := by
  simp [errsIn, List.take_add, List.any_append]

/-- Characterisation of the inner batch loop: one upsert action is appended
per batch, `has_errors` absorbs the failures among the consumed outcomes,
and the consumed outcomes are dropped from the pending list. -/
theorem foldl_runBatch (bs : List (List Rec)) (st : ProcState) :
    bs.foldl runBatch st =
      { trace := st.trace ++ ok_trace st.pending bs
        total := st.total
        has_errors := st.has_errors || errsIn st.pending bs.length
        pending := st.pending.drop bs.length } := by
  induction bs generalizing st with
  | nil => simp [ok_trace, errsIn]
  | cons b bs ih =>
    rw [List.foldl_cons, ih]
    cases hp : st.pending with
    | nil =>
      simp [runBatch, hp, takeOutcome, ok_trace, errsIn, UpsertOutcome.isSuccess]
    | cons o rest =>
      simp [runBatch, hp, takeOutcome, ok_trace, errsIn, Bool.or_assoc, List.take_succ_cons]

/-- Characterisation of the chunk loop in terms of the batches and records
of the processed chunks. -/
theorem foldl_runChunk (cs : List DataFrame) (st : ProcState) :
    cs.foldl runChunk st =
      { trace := st.trace ++ ok_trace st.pending (chunkBatches cs)
        total := st.total + (chunkRecordsList cs).length
        has_errors := st.has_errors || errsIn st.pending (chunkBatches cs).length
        pending := st.pending.drop (chunkBatches cs).length } := by
  induction cs generalizing st with
  | nil => simp [chunkBatches, chunkRecordsList, ok_trace, errsIn]
  | cons c cs ih =>
    rw [List.foldl_cons]
    have hc : runChunk st c =
        { trace := st.trace ++ ok_trace st.pending (chunksOf BATCH_SIZE (chunkRecs c))
          total := st.total + (chunkRecs c).length
          has_errors := st.has_errors || errsIn st.pending (chunksOf BATCH_SIZE (chunkRecs c)).length
          pending := st.pending.drop (chunksOf BATCH_SIZE (chunkRecs c)).length } := by
      simp only [runChunk, chunkRecs, foldl_runBatch]
    rw [hc, ih]
    have hbatch : chunkBatches (c :: cs) =
        chunksOf BATCH_SIZE (chunkRecs c) ++ chunkBatches cs := by
      simp [chunkBatches]
    have hrecs : (chunkRecordsList (c :: cs)).length =
        (chunkRecs c).length + (chunkRecordsList cs).length := by
      simp [chunkRecordsList]
    simp only [hbatch, hrecs, ok_trace_append, errsIn_add, List.length_append, List.drop_drop,
      List.append_assoc, Bool.or_assoc, Nat.add_assoc]

/-- A run against a feed whose download status is not 200 performs nothing
and exits with code 1. -/
theorem sync_data_bad_status (inp : RunInput) (h : inp.status ≠ 200) :
    sync_data inp =
      { trace := [], total_uploaded := 0, has_errors := false, exitCode := 1 } := by
  simp [sync_data, h]

/-- A run whose CSV read raises performs nothing and exits with code 1. -/
theorem sync_data_read_none (inp : RunInput) (h200 : inp.status = 200)
    (hr : read_csv inp.feed = none) :
    sync_data inp =
      { trace := [], total_uploaded := 0, has_errors := false, exitCode := 1 } := by
  simp [sync_data, h200, hr]

/-- Full characterisation of a run whose download succeeded and whose feed
decoded to the dataframe `df`. -/
theorem sync_data_of_read (inp : RunInput) (df : DataFrame)
    (h200 : inp.status = 200) (hr : read_csv inp.feed = some df) :
    sync_data inp =
      { trace := ok_trace inp.outcomes (chunkBatches (mkChunks df))
        total_uploaded := (chunkRecordsList (mkChunks df)).length
        has_errors := errsIn inp.outcomes (chunkBatches (mkChunks df)).length
        exitCode := if errsIn inp.outcomes (chunkBatches (mkChunks df)).length then 1 else 0 } := by
  simp [sync_data, h200, hr, foldl_runChunk, mkChunks]

/-- Filtering after mapping a function that fixes every kept element and
never changes membership in the filter equals filtering the original. -/
theorem filter_map_fix {α : Type} (l : List α) (g : α → α) (p : α → Bool)
    (h1 : ∀ x, p x = true → g x = x) (h2 : ∀ x, p (g x) = p x) :
    (l.map g).filter p = l.filter p := by
  induction l with
  | nil => rfl
  | cons x l ih =>
    simp only [List.map_cons, List.filter_cons, h2 x]
    cases hx : p x with
    | false => simpa using ih
    | true => rw [h1 x hx]; simpa using ih

/-- A record with a null key is appended, never merged. -/
theorem upsertRecord_nullkey (store : List Rec) (r : Rec) (h : recKey r = none) :
    upsertRecord store r = store ++ [r] := by
  simp [upsertRecord, h]

/-- Unfolding of `upsertRecord` at a record with a non-null key. -/
theorem upsertRecord_somekey (store : List Rec) (r : Rec) (k : Value)
    (hk : recKey r = some k) :
    upsertRecord store r =
      if store.any (fun s => decide (recKey s = some k)) then
        store.map (fun s => if recKey s = some k then r else s)
      else store ++ [r] := by
  unfold upsertRecord
  rw [hk]

/-- Upserting a record with key `k` into a key-unique store leaves exactly
one row with key `k`. -/
theorem countKey_upsertRecord_same (store : List Rec) (r : Rec) (k : Value)
    (hk : recKey r = some k) (hu : countKey store k ≤ 1) :
    countKey (upsertRecord store r) k = 1 := by
  rw [upsertRecord_somekey store r k hk]
  by_cases h : store.any (fun s => decide (recKey s = some k))
  · rw [if_pos h]
    have hcong : countKey (store.map (fun s => if recKey s = some k then r else s)) k =
        countKey store k := by
      unfold countKey
      rw [List.countP_map]
      refine List.countP_congr ?_
      intro s _
      by_cases hs : recKey s = some k
      · simp [Function.comp, hs, hk]
      · simp [Function.comp, hs]
    rw [hcong]
    have hpos : 0 < countKey store k := by
      rw [countKey, List.countP_pos_iff]
      rcases List.any_eq_true.mp h with ⟨s, hs, hps⟩
      exact ⟨s, hs, hps⟩
    omega
  · rw [if_neg h]
    have h0 : countKey store k = 0 := by
      rw [countKey, List.countP_eq_zero]
      intro s hs
      intro hps
      exact h (List.any_eq_true.mpr ⟨s, hs, hps⟩)
    rw [countKey, List.countP_append]
    rw [countKey] at h0
    simp [h0, List.countP_cons, hk]

/-- Upserting a record whose key is not `k` leaves the rows with key `k`
untouched. -/
theorem filter_upsertRecord_other (store : List Rec) (r : Rec) (k : Value)
    (hne : recKey r ≠ some k) :
    (upsertRecord store r).filter (fun s => decide (recKey s = some k)) =
      store.filter (fun s => decide (recKey s = some k)) := by
  cases hr : recKey r with
  | none =>
    rw [upsertRecord_nullkey store r hr, List.filter_append]
    simp [hr]
  | some k' =>
    rw [upsertRecord_somekey store r k' hr]
    by_cases h : store.any (fun s => decide (recKey s = some k'))
    · rw [if_pos h]
      refine filter_map_fix _ _ _ ?_ ?_
      · intro s hs
        have hs' : recKey s = some k := of_decide_eq_true hs
        have : recKey s ≠ some k' := by
          rw [hs']
          intro hcontra
          exact hne (hr.trans hcontra.symm)
        simp [this]
      · intro s
        by_cases hs : recKey s = some k'
        · simp [hs, hr]
        · simp [hs]
    · rw [if_neg h, List.filter_append]
      have hkk : ¬(k' = k) := fun hkk => hne (by rw [hr, hkk])
      simp [hr, hkk]

/-- Count form of `filter_upsertRecord_other`. -/
theorem countKey_upsertRecord_other (store : List Rec) (r : Rec) (k : Value)
    (hne : recKey r ≠ some k) :
    countKey (upsertRecord store r) k = countKey store k := by
  rw [countKey, countKey, List.countP_eq_length_filter, List.countP_eq_length_filter,
    filter_upsertRecord_other store r k hne]

/-- Upserting preserves key-uniqueness of the store. -/
theorem uniqueKeys_upsertRecord (store : List Rec) (r : Rec) (h : UniqueKeys store) :
    UniqueKeys (upsertRecord store r) := by
  intro k
  by_cases hr : recKey r = some k
  · rw [countKey_upsertRecord_same store r k hr (h k)]
  · rw [countKey_upsertRecord_other store r k hr]
    exact h k

/-- Upserting a sequence of records preserves key-uniqueness. -/
theorem uniqueKeys_foldl (rs : List Rec) (s : List Rec) (h : UniqueKeys s) :
    UniqueKeys (rs.foldl upsertRecord s) := by
  induction rs generalizing s with
  | nil => exact h
  | cons r rs ih => exact ih _ (uniqueKeys_upsertRecord s r h)

/-- Once a key has exactly one row, upserting further records keeps exactly
one row for it. -/
theorem countKey_foldl_stable (rs : List Rec) (s : List Rec) (k : Value)
    (h : UniqueKeys s) (h1 : countKey s k = 1) :
    countKey (rs.foldl upsertRecord s) k = 1 := by
  induction rs generalizing s with
  | nil => exact h1
  | cons r rs ih =>
    rw [List.foldl_cons]
    by_cases hr : recKey r = some k
    · exact ih _ (uniqueKeys_upsertRecord s r h) (countKey_upsertRecord_same s r k hr (h k))
    · exact ih _ (uniqueKeys_upsertRecord s r h)
        (by rw [countKey_upsertRecord_other s r k hr]; exact h1)

/-- After upserting a sequence of records into a key-unique store, every key
occurring in the sequence has exactly one row. -/
theorem countKey_foldl_mem (rs : List Rec) (s : List Rec) (k : Value)
    (h : UniqueKeys s) (hm : k ∈ feedKeys rs) :
    countKey (rs.foldl upsertRecord s) k = 1 := by
  induction rs generalizing s with
  | nil => simp [feedKeys] at hm
  | cons r rs ih =>
    rw [List.foldl_cons]
    by_cases hr : recKey r = some k
    · exact countKey_foldl_stable rs _ k (uniqueKeys_upsertRecord s r h)
        (countKey_upsertRecord_same s r k hr (h k))
    · have hm' : k ∈ feedKeys rs := by
        rcases List.mem_filterMap.mp hm with ⟨a, ha, hka⟩
        rcases List.mem_cons.mp ha with rfl | ha'
        · exact absurd hka hr
        · exact List.mem_filterMap.mpr ⟨a, ha', hka⟩
      exact ih _ (uniqueKeys_upsertRecord s r h) hm'

/-- Rows whose key never occurs in the upserted sequence are untouched. -/
theorem filter_foldl_not_mem (rs : List Rec) (s : List Rec) (k : Value)
    (hm : k ∉ feedKeys rs) :
    (rs.foldl upsertRecord s).filter (fun x => decide (recKey x = some k)) =
      s.filter (fun x => decide (recKey x = some k)) := by
  induction rs generalizing s with
  | nil => rfl
  | cons r rs ih =>
    have hr : recKey r ≠ some k := by
      intro hka
      exact hm (List.mem_filterMap.mpr ⟨r, List.mem_cons_self r rs, hka⟩)
    have hm' : k ∉ feedKeys rs := by
      intro hmem
      rcases List.mem_filterMap.mp hmem with ⟨a, ha, hka⟩
      exact hm (List.mem_filterMap.mpr ⟨a, List.mem_cons_of_mem r ha, hka⟩)
    rw [List.foldl_cons, ih _ hm', filter_upsertRecord_other s r k hr]

/-- The script's trace never contains a purge: `sync_feed.py` has no delete
call at all. -/
theorem purge_not_mem_ok_trace (p : List UpsertOutcome) (bs : List (List Rec)) :
    StoreAction.purge ∉ ok_trace p bs := by
  induction bs generalizing p with
  | nil => simp [ok_trace]
  | cons b bs ih =>
    simp only [ok_trace, List.mem_cons]
    rintro (h | h)
    · exact StoreAction.noConfusion h
    · exact ih _ h

/-- The batch payloads of the expected trace are exactly the batches. -/
theorem traceBatches_ok_trace (p : List UpsertOutcome) (bs : List (List Rec)) :
    traceBatches (ok_trace p bs) = bs := by
  induction bs generalizing p with
  | nil => rfl
  | cons b bs ih =>
    simp only [ok_trace, traceBatches, List.filterMap_cons]
    have := ih (takeOutcome p).2
    rw [traceBatches] at this
    rw [this]

/-- The expected trace has one action per batch. -/
theorem length_ok_trace (p : List UpsertOutcome) (bs : List (List Rec)) :
    (ok_trace p bs).length = bs.length := by
  induction bs generalizing p with
  | nil => rfl
  | cons b bs ih => simp [ok_trace, ih]

/-- When the store reports only successes, replaying the trace applies every
batch in order. -/
theorem applyTrace_ok_trace (p : List UpsertOutcome) (bs : List (List Rec)) (s0 : List Rec)
    (h : ∀ o ∈ p, o = UpsertOutcome.success) :
    applyTrace s0 (ok_trace p bs) = bs.foldl upsertBatch s0 := by
  induction bs generalizing p s0 with
  | nil => rfl
  | cons b bs ih =>
    cases p with
    | nil =>
      show applyTrace _ (StoreAction.upsert b true :: ok_trace [] bs) = _
      rw [applyTrace, List.foldl_cons]
      exact ih [] _ (by simp)
    | cons o rest =>
      have ho : o = UpsertOutcome.success := h o (List.mem_cons_self o rest)
      subst ho
      show applyTrace _ (StoreAction.upsert b true :: ok_trace rest bs) = _
      rw [applyTrace, List.foldl_cons]
      exact ih rest _ (fun o' ho' => h o' (List.mem_cons_of_mem _ ho'))

/-- Applying batch after batch equals upserting the concatenated records. -/
theorem foldl_upsertBatch_flatten (bs : List (List Rec)) (s0 : List Rec) :
    bs.foldl upsertBatch s0 = bs.flatten.foldl upsertRecord s0 := by
  rw [List.foldl_flatten]
  rfl

/-- The batches of a chunk list concatenate to its records. -/
theorem chunkBatches_flatten (cs : List DataFrame) :
    (chunkBatches cs).flatten = chunkRecordsList cs := by
  rw [chunkBatches, chunkRecordsList, List.flatten_flatten, List.map_map]
  congr 1
  refine List.map_congr_left ?_
  intro df _
  exact chunksOf_flatten BATCH_SIZE (chunkRecs df)

/-- A decimal digit is not whitespace. -/
theorem isWhitespace_eq_false_of_isDigit (c : Char) (h : c.isDigit = true) :
    c.isWhitespace = false := by
  simp [Char.isDigit] at h
  have h1 : ¬(c = ' ') := by intro hc; subst hc; exact absurd h (by decide)
  have h2 : ¬(c = '\t') := by intro hc; subst hc; exact absurd h (by decide)
  have h3 : ¬(c = '\x0d') := by intro hc; subst hc; exact absurd h (by decide)
  have h4 : ¬(c = '\n') := by intro hc; subst hc; exact absurd h (by decide)
  rw [Char.isWhitespace]
  simp [h1, h2, h3, h4]

/-- A decimal digit is not the minus sign. -/
theorem digit_ne_minus (c : Char) (h : c.isDigit = true) : ¬(c = '-') := by
  intro hc; subst hc; simp [Char.isDigit] at h

/-- A decimal digit is not the plus sign. -/
theorem digit_ne_plus (c : Char) (h : c.isDigit = true) : ¬(c = '+') := by
  intro hc; subst hc; simp [Char.isDigit] at h

/-- Dropping while a predicate holds skips a prefix on which it holds
everywhere. -/
theorem dropWhile_append_all {p : Char → Bool} (w l : List Char)
    (h : ∀ c ∈ w, p c = true) :
    List.dropWhile p (w ++ l) = List.dropWhile p l := by
  induction w with
  | nil => rfl
  | cons c w ih =>
    rw [List.cons_append, List.dropWhile_cons, if_pos (h c (List.mem_cons_self c w))]
    exact ih (fun c' hc' => h c' (List.mem_cons_of_mem c hc'))

/-- Dropping while a predicate holds stops at a head where it fails. -/
theorem dropWhile_cons_neg {p : Char → Bool} (c : Char) (l : List Char)
    (h : p c = false) :
    List.dropWhile p (c :: l) = c :: l := by
  rw [List.dropWhile_cons, h]
  simp

/-- Trimming strips surrounding whitespace from a non-empty digit string and
nothing else. -/
theorem trimChars_spaces (w1 w2 ds : List Char)
    (h1 : ∀ c ∈ w1, c.isWhitespace = true) (h2 : ∀ c ∈ w2, c.isWhitespace = true)
    (hne : ds ≠ []) (hd : ∀ c ∈ ds, c.isDigit = true) :
    trimChars (w1 ++ ds ++ w2) = ds := by
  obtain ⟨d, ds', rfl⟩ := List.exists_cons_of_ne_nil hne
  rw [trimChars, dropSpaces, List.append_assoc, dropWhile_append_all w1 _ h1,
    List.cons_append, dropWhile_cons_neg _ _
      (isWhitespace_eq_false_of_isDigit d (hd d (List.mem_cons_self d ds')))]
  rw [← List.cons_append, List.reverse_append]
  rw [dropWhile_append_all _ _ (fun c hc => h2 c (List.mem_reverse.mp hc))]
  cases hrev : (d :: ds').reverse with
  | nil => exact absurd hrev (by simp)
  | cons e t =>
    have he : e ∈ d :: ds' := by
      rw [← List.mem_reverse, hrev]
      exact List.mem_cons_self e t
    rw [dropWhile_cons_neg _ _ (isWhitespace_eq_false_of_isDigit e (hd e he))]
    rw [← hrev, List.reverse_reverse]

/-- Parsing a non-empty digit string yields its decimal value. -/
theorem parseNumChars_digits (ds : List Char) (hne : ds ≠ [])
    (hd : ∀ c ∈ ds, c.isDigit = true) :
    parseNumChars ds = some ((digitsToNat ds : Nat) : Int) := by
  obtain ⟨d, ds', rfl⟩ := List.exists_cons_of_ne_nil hne
  have hdd : d.isDigit = true := hd d (List.mem_cons_self d ds')
  rw [parseNumChars]
  rw [if_neg (digit_ne_minus d hdd), if_neg (digit_ne_plus d hdd),
    if_pos (List.all_eq_true.mpr hd)]

/-- A run whose outcomes are all successes detects no errors. -/
theorem errsIn_of_success (p : List UpsertOutcome) (n : Nat)
    (h : ∀ o ∈ p, o = UpsertOutcome.success) : errsIn p n = false := by
  rw [errsIn, List.any_eq_false]
  intro o ho
  rw [h o (List.take_subset n p ho)]
  simp [UpsertOutcome.isSuccess]

/-- Error detection is the negation of all consumed outcomes succeeding. -/
theorem errsIn_eq_not_all (p : List UpsertOutcome) (n : Nat) :
    errsIn p n = !((p.take n).all UpsertOutcome.isSuccess) := by
  rw [errsIn]
  induction p.take n with
  | nil => rfl
  | cons o l ih => simp [List.any_cons, List.all_cons, ih, Bool.not_and]

/-- Cleaning never adds or removes rows. -/
theorem clean_rows_length (df : DataFrame) :
    (clean_dataframe df).rows.length = df.rows.length := by
  rw [clean_dataframe]
  by_cases h : ZIP_COL ∈ df.cols <;> simp [h]

/-- One cleaned chunk yields one record per row. -/
theorem chunkRecs_length (df : DataFrame) : (chunkRecs df).length = df.rows.length := by
  rw [chunkRecs, toRecords, List.length_map]
  exact clean_rows_length df

/-- The records of all chunks of a decoded dataframe are exactly its rows in
number. -/
theorem chunkRecordsList_mkChunks_length (df : DataFrame) :
    (chunkRecordsList (mkChunks df)).length = df.rows.length := by
  rw [chunkRecordsList, mkChunks, List.map_map, List.length_flatten, List.map_map]
  have h : List.map (List.length ∘ (chunkRecs ∘ DataFrame.mk df.cols)) (chunksOf CHUNK_SIZE df.rows)
      = List.map List.length (chunksOf CHUNK_SIZE df.rows) := by
    refine List.map_congr_left ?_
    intro rs _
    exact chunkRecs_length { cols := df.cols, rows := rs }
  rw [h, ← List.length_flatten, chunksOf_flatten]

/-- Cleaning a dataframe without the zipcode column is a per-cell map. -/
theorem clean_dataframe_no_zip (df : DataFrame) (h : ZIP_COL ∉ df.cols) :
    clean_dataframe df =
      { cols := df.cols.map strip
        rows := df.rows.map (List.map (fun v => nanToNull (dropInf v))) } := by
  rw [clean_dataframe]
  simp [h, List.map_map, Function.comp]

/-- C6 (confirmed).  For every run whose feed download returns a non-success
transport status (any status other than 200), the run terminates with the
distinguishable non-zero failure signal `sys.exit(1)`, zero rows are written
to the store (the trace is empty and replaying it leaves any store
unchanged, and `total_uploaded` is zero), and the purge is never invoked. -/
theorem c6_transport_failure (inp : RunInput) (s0 : List Rec) (h : inp.status ≠ 200) :
    (sync_data inp).exitCode = 1 ∧
    (sync_data inp).trace = [] ∧
    (sync_data inp).total_uploaded = 0 ∧
    applyTrace s0 (sync_data inp).trace = s0 ∧
    StoreAction.purge ∉ (sync_data inp).trace := by
  rw [sync_data_bad_status inp h]
  refine ⟨rfl, rfl, rfl, rfl, ?_⟩
  simp

/-- Witness for `c6_transport_failure` at status 503 on a non-empty feed and
a non-empty store. -/
theorem c6_transport_failure_witness :
    (sync_data { status := 503, feed := ["aw_product_id,city", "1,london"], outcomes := [] }).exitCode = 1 ∧
    (sync_data { status := 503, feed := ["aw_product_id,city", "1,london"], outcomes := [] }).trace = [] ∧
    (sync_data { status := 503, feed := ["aw_product_id,city", "1,london"], outcomes := [] }).total_uploaded = 0 ∧
    applyTrace [[("aw_product_id", Value.str "9")]]
        (sync_data { status := 503, feed := ["aw_product_id,city", "1,london"], outcomes := [] }).trace =
      [[("aw_product_id", Value.str "9")]] ∧
    StoreAction.purge ∉
      (sync_data { status := 503, feed := ["aw_product_id,city", "1,london"], outcomes := [] }).trace :=
  c6_transport_failure _ _ (by decide)

/-- C10 (confirmed).  The reported `total_uploaded` equals the number of
rows decoded from the feed, for every outcome list — including runs where
every batch upsert fails — so it is not a count of rows successfully
written: the counter is bumped by the full chunk size regardless of
per-batch outcomes. -/
theorem c10_total_uploaded (feed : List String) (os : List UpsertOutcome) (df : DataFrame)
    (hr : read_csv feed = some df) :
    (sync_data { status := 200, feed := feed, outcomes := os }).total_uploaded =
      df.rows.length := by
  rw [sync_data_of_read _ df rfl hr]
  exact chunkRecordsList_mkChunks_length df

/-- Witness for `c10_total_uploaded`: a feed of two decoded rows whose only
batch fails still reports two processed rows. -/
theorem c10_total_uploaded_witness :
    (sync_data
        { status := 200
          feed := ["aw_product_id,city", "1,london", "2,paris"]
          outcomes := [UpsertOutcome.permanentError] }).total_uploaded = 2 :=
  c10_total_uploaded ["aw_product_id,city", "1,london", "2,paris"]
    [UpsertOutcome.permanentError]
    { cols := ["aw_product_id", "city"]
      rows := [[Value.str "1", Value.str "london"], [Value.str "2", Value.str "paris"]] }
    (by decide)

/-- C1 counterexample.  A run that completes successfully (exit code 0) on a
feed containing only key "7", replayed against a store holding a row with
key "9" — a key absent from the feed — leaves that stale row in the store:
the script has no purge step and no watermark, so the claimed reconciliation
invariant (keys absent from the feed have no store row after the purge of
the same run) is false. -/
theorem c1_counterexample :
    (sync_data
      { status := 200
        feed := ["aw_product_id,city", "7,london"]
        outcomes := [] }).exitCode = 0 ∧
    applyTrace [[("aw_product_id", Value.str "9"), ("city", Value.str "oslo")]]
        (sync_data
          { status := 200
            feed := ["aw_product_id,city", "7,london"]
            outcomes := [] }).trace =
      [[("aw_product_id", Value.str "9"), ("city", Value.str "oslo")],
        [("aw_product_id", Value.str "7"), ("city", Value.str "london")]] := by
  decide

/-- C1 (amended).  After a run that downloads, decodes and upserts with only
successful store outcomes, replayed against any key-unique initial store:
the run exits 0; the store stays key-unique; every non-null key occurring
among the cleaned feed records has exactly one store row; rows whose key
does not occur in the feed are left exactly as they were (nothing is ever
purged — the script has no delete call, records carry no watermark); and no
purge action occurs in the trace. -/
theorem c1_amended (inp : RunInput) (df : DataFrame) (s0 : List Rec)
    (h200 : inp.status = 200) (hr : read_csv inp.feed = some df)
    (hok : ∀ o ∈ inp.outcomes, o = UpsertOutcome.success)
    (huniq : UniqueKeys s0) :
    (sync_data inp).exitCode = 0 ∧
    UniqueKeys (applyTrace s0 (sync_data inp).trace) ∧
    (∀ k, k ∈ feedKeys (feedRecords inp) →
      countKey (applyTrace s0 (sync_data inp).trace) k = 1) ∧
    (∀ k, k ∉ feedKeys (feedRecords inp) →
      (applyTrace s0 (sync_data inp).trace).filter (fun x => decide (recKey x = some k)) =
        s0.filter (fun x => decide (recKey x = some k))) ∧
    StoreAction.purge ∉ (sync_data inp).trace := by
  have herr : errsIn inp.outcomes (chunkBatches (mkChunks df)).length = false :=
    errsIn_of_success _ _ hok
  have htr : applyTrace s0 (ok_trace inp.outcomes (chunkBatches (mkChunks df))) =
      (chunkRecordsList (mkChunks df)).foldl upsertRecord s0 := by
    rw [applyTrace_ok_trace _ _ _ hok, foldl_upsertBatch_flatten, chunkBatches_flatten]
  have hfr : feedRecords inp = chunkRecordsList (mkChunks df) := by
    rw [feedRecords, hr]
  simp only [sync_data_of_read inp df h200 hr]
  refine ⟨by simp [herr], ?_, ?_, ?_, ?_⟩
  · rw [htr]
    exact uniqueKeys_foldl _ _ huniq
  · intro k hk
    rw [htr]
    rw [hfr] at hk
    exact countKey_foldl_mem _ _ _ huniq hk
  · intro k hk
    rw [htr]
    rw [hfr] at hk
    exact filter_foldl_not_mem _ _ _ hk
  · exact purge_not_mem_ok_trace _ _

/-- Witness for `c1_amended`: a successful one-row run gives key "7" exactly
one store row. -/
theorem c1_amended_witness :
    countKey
      (applyTrace []
        (sync_data
          { status := 200
            feed := ["aw_product_id,city", "7,london"]
            outcomes := [UpsertOutcome.success] }).trace)
      (Value.str "7") = 1 := by
  have h := c1_amended
    { status := 200
      feed := ["aw_product_id,city", "7,london"]
      outcomes := [UpsertOutcome.success] }
    { cols := ["aw_product_id", "city"]
      rows := [[Value.str "7", Value.str "london"]] }
    [] rfl (by decide) (by decide) (fun k => by simp [countKey])
  exact h.2.2.1 (Value.str "7") (by decide)

/-- C2 counterexample.  A raw row whose `aw_product_id` column is blank is
not rejected and no `ValidationError(MissingKey)` exists anywhere in the
script: the row is cleaned (the empty field becomes NULL), included in the
upsert batch, written to the store, and the run exits 0. -/
theorem c2_counterexample :
    (sync_data
      { status := 200
        feed := ["aw_product_id,city", ",london"]
        outcomes := [] }).trace =
      [StoreAction.upsert [[("aw_product_id", Value.null), ("city", Value.str "london")]] true] ∧
    applyTrace []
        (sync_data
          { status := 200
            feed := ["aw_product_id,city", ",london"]
            outcomes := [] }).trace =
      [[("aw_product_id", Value.null), ("city", Value.str "london")]] ∧
    (sync_data
      { status := 200
        feed := ["aw_product_id,city", ",london"]
        outcomes := [] }).exitCode = 0 := by
  decide

/-- C2 (amended).  Normalization performs no key validation and never fails:
`clean_dataframe` keeps every row (blank key or not), and every cleaned
record of the feed — including records whose key column is blank or absent —
is part of some attempted upsert batch. -/
theorem c2_amended :
    (∀ df : DataFrame, (clean_dataframe df).rows.length = df.rows.length) ∧
    (∀ (feed : List String) (os : List UpsertOutcome),
      (traceBatches (sync_data { status := 200, feed := feed, outcomes := os }).trace).flatten =
        feedRecords { status := 200, feed := feed, outcomes := os }) := by
  refine ⟨clean_rows_length, ?_⟩
  intro feed os
  cases hr : read_csv feed with
  | none =>
    rw [sync_data_read_none _ rfl hr]
    rw [feedRecords, hr]
    rfl
  | some df =>
    rw [sync_data_of_read _ df rfl hr]
    rw [feedRecords, hr]
    simp only [traceBatches_ok_trace, chunkBatches_flatten]

/-- C3 counterexample.  A batch whose upsert fails with a transient error is
attempted exactly once — the trace holds a single upsert call, not the two
calls a retry-once policy would produce — and the run records the error
even though the store's next outcome (the one a retry would have consumed)
is a success. -/
theorem c3_counterexample :
    (sync_data
      { status := 200
        feed := ["aw_product_id,city", "7,london"]
        outcomes := [UpsertOutcome.transientError, UpsertOutcome.success] }).trace.length = 1 ∧
    (sync_data
      { status := 200
        feed := ["aw_product_id,city", "7,london"]
        outcomes := [UpsertOutcome.transientError, UpsertOutcome.success] }).has_errors = true := by
  decide

/-- C3 (amended).  The writer never retries any batch: each batch gives rise
to exactly one upsert call whatever the outcomes are, and the run's error
flag is set exactly when one of the consumed outcomes — transient or not —
is a failure; every failure is recorded immediately, with no backoff and no
distinction between transient and non-transient causes. -/
theorem c3_amended (feed : List String) (os : List UpsertOutcome) :
    (sync_data { status := 200, feed := feed, outcomes := os }).trace.length =
      (allBatches { status := 200, feed := feed, outcomes := os }).length ∧
    (sync_data { status := 200, feed := feed, outcomes := os }).has_errors =
      errsIn os (allBatches { status := 200, feed := feed, outcomes := os }).length := by
  cases hr : read_csv feed with
  | none =>
    rw [sync_data_read_none _ rfl hr]
    rw [allBatches, hr]
    exact ⟨rfl, rfl⟩
  | some df =>
    rw [sync_data_of_read _ df rfl hr]
    rw [allBatches, hr]
    exact ⟨length_ok_trace _ _, rfl⟩

/-- C5 counterexample.  A run whose only batch fails still processes the
whole feed (its one row is counted) but no purge step runs after the
processing — the trace contains no purge action, because the script has no
purge at all — refuting the claim that the purge step is still run. -/
theorem c5_counterexample :
    (sync_data
      { status := 200
        feed := ["aw_product_id,city", "7,london"]
        outcomes := [UpsertOutcome.permanentError] }).total_uploaded = 1 ∧
    StoreAction.purge ∉
      (sync_data
        { status := 200
          feed := ["aw_product_id,city", "7,london"]
          outcomes := [UpsertOutcome.permanentError] }).trace := by
  decide

/-- C5 (amended).  Processing always continues past failed batches: the
batches attempted are exactly all batches of the feed, independent of the
outcomes, the full row count is always processed, and a failed batch never
aborts the run; but no purge step exists, so nothing is purged after
processing. -/
theorem c5_amended (feed : List String) (os : List UpsertOutcome) :
    traceBatches (sync_data { status := 200, feed := feed, outcomes := os }).trace =
      allBatches { status := 200, feed := feed, outcomes := os } ∧
    (sync_data { status := 200, feed := feed, outcomes := os }).total_uploaded =
      (feedRecords { status := 200, feed := feed, outcomes := os }).length ∧
    StoreAction.purge ∉ (sync_data { status := 200, feed := feed, outcomes := os }).trace := by
  cases hr : read_csv feed with
  | none =>
    rw [sync_data_read_none _ rfl hr]
    rw [allBatches, feedRecords, hr]
    exact ⟨rfl, rfl, by simp⟩
  | some df =>
    rw [sync_data_of_read _ df rfl hr]
    rw [allBatches, feedRecords, hr]
    exact ⟨traceBatches_ok_trace _ _, rfl, purge_not_mem_ok_trace _ _⟩

/-- Witness for `c5_amended` at a one-row feed whose only batch fails. -/
theorem c5_amended_witness :
    traceBatches
        (sync_data
          { status := 200
            feed := ["aw_product_id,city", "7,london"]
            outcomes := [UpsertOutcome.transientError] }).trace =
      allBatches
        { status := 200
          feed := ["aw_product_id,city", "7,london"]
          outcomes := [UpsertOutcome.transientError] } ∧
    (sync_data
      { status := 200
        feed := ["aw_product_id,city", "7,london"]
        outcomes := [UpsertOutcome.transientError] }).total_uploaded =
      (feedRecords
        { status := 200
          feed := ["aw_product_id,city", "7,london"]
          outcomes := [UpsertOutcome.transientError] }).length ∧
    StoreAction.purge ∉
      (sync_data
        { status := 200
          feed := ["aw_product_id,city", "7,london"]
          outcomes := [UpsertOutcome.transientError] }).trace :=
  c5_amended ["aw_product_id,city", "7,london"] [UpsertOutcome.transientError]

/-- C7 counterexample.  A run with a partial batch failure completes
processing (the row is counted, the batch was attempted) yet the invocation
raises the failure signal: the process exits 1, exactly as for fatal
errors, refuting the claim that the failure signal is not raised for
partial batch failures alone. -/
theorem c7_counterexample :
    (sync_data
      { status := 200
        feed := ["aw_product_id,city", "7,london"]
        outcomes := [UpsertOutcome.permanentError] }).total_uploaded = 1 ∧
    (sync_data
      { status := 200
        feed := ["aw_product_id,city", "7,london"]
        outcomes := [UpsertOutcome.permanentError] }).trace.length = 1 ∧
    (sync_data
      { status := 200
        feed := ["aw_product_id,city", "7,london"]
        outcomes := [UpsertOutcome.permanentError] }).exitCode = 1 := by
  decide

/-- C7 (amended).  A run with partial batch failures still attempts every
batch and completes processing, but then exits with the failure code 1:
the exit code is 0 exactly when every consumed outcome succeeded, so
"completed with errors" is reported to the scheduler as a failure, not a
success. -/
theorem c7_amended (feed : List String) (os : List UpsertOutcome) (df : DataFrame)
    (hr : read_csv feed = some df) :
    traceBatches (sync_data { status := 200, feed := feed, outcomes := os }).trace =
      allBatches { status := 200, feed := feed, outcomes := os } ∧
    (sync_data { status := 200, feed := feed, outcomes := os }).exitCode =
      (if (os.take (allBatches { status := 200, feed := feed, outcomes := os }).length).all
          UpsertOutcome.isSuccess then 0 else 1) := by
  rw [sync_data_of_read _ df rfl hr]
  rw [allBatches, hr]
  refine ⟨traceBatches_ok_trace _ _, ?_⟩
  simp only [errsIn_eq_not_all]
  cases ((os.take (chunkBatches (mkChunks df)).length).all UpsertOutcome.isSuccess) <;> rfl

/-- Witness for `c7_amended`: a one-batch run with a permanent failure exits
with code 1. -/
theorem c7_amended_witness :
    traceBatches
        (sync_data
          { status := 200
            feed := ["aw_product_id,city", "7,london"]
            outcomes := [UpsertOutcome.permanentError] }).trace =
      allBatches
        { status := 200
          feed := ["aw_product_id,city", "7,london"]
          outcomes := [UpsertOutcome.permanentError] } ∧
    (sync_data
      { status := 200
        feed := ["aw_product_id,city", "7,london"]
        outcomes := [UpsertOutcome.permanentError] }).exitCode =
      (if ([UpsertOutcome.permanentError].take
          (allBatches
            { status := 200
              feed := ["aw_product_id,city", "7,london"]
              outcomes := [UpsertOutcome.permanentError] }).length).all
          UpsertOutcome.isSuccess then 0 else 1) :=
  c7_amended ["aw_product_id,city", "7,london"] [UpsertOutcome.permanentError]
    { cols := ["aw_product_id", "city"], rows := [[Value.str "7", Value.str "london"]] }
    (by decide)

/-- C4 counterexample.  Embedded spaces are not stripped before numeric
parsing: the zipcode value "1 234" — a valid number under the claim's
strip-embedded-spaces reading — is coerced to NULL rather than to the
number 1234. -/
theorem c4_counterexample :
    clean_dataframe { cols := ["Travel:destination_zipcode"], rows := [[Value.str "1 234"]] } =
      { cols := ["Travel:destination_zipcode"], rows := [[Value.null]] } := by
  decide

/-- C4 (amended).  Numeric coercion parses an unsigned decimal numeral
surrounded (but not interleaved) by whitespace to its value; it is a total
per-field function that yields a number or NaN (later NULL) and never an
error, so a failing field cannot abort its row; and a numeral with an
embedded space is not stripped but coerced to NaN. -/
theorem c4_amended :
    (∀ (w1 w2 ds : List Char), (∀ c ∈ w1, c.isWhitespace = true) →
      (∀ c ∈ w2, c.isWhitespace = true) → ds ≠ [] → (∀ c ∈ ds, c.isDigit = true) →
      to_numeric (Value.str (String.mk (w1 ++ ds ++ w2))) =
        Value.num ((digitsToNat ds : Nat) : Int)) ∧
    (∀ s : String, (∃ n : Int, to_numeric (Value.str s) = Value.num n) ∨
      to_numeric (Value.str s) = Value.nan) ∧
    to_numeric (Value.str "1 234") = Value.nan := by
  refine ⟨?_, ?_, by decide⟩
  · intro w1 w2 ds h1 h2 hne hd
    have hp : parseNumber (String.mk (w1 ++ ds ++ w2)) = some ((digitsToNat ds : Nat) : Int) := by
      rw [parseNumber]
      show parseNumChars (trimChars (w1 ++ ds ++ w2)) = _
      rw [trimChars_spaces w1 w2 ds h1 h2 hne hd]
      exact parseNumChars_digits ds hne hd
    simp only [List.append_assoc] at hp
    simp [to_numeric, hp]
  · intro s
    cases hp : parseNumber s with
    | none => exact Or.inr (by simp [to_numeric, hp])
    | some n => exact Or.inl ⟨n, by simp [to_numeric, hp]⟩

/-- Witness for `c4_amended`: the value " 42 " coerces to the number 42. -/
theorem c4_amended_witness :
    to_numeric (Value.str (String.mk ([' '] ++ ['4', '2'] ++ [' ']))) =
      Value.num ((digitsToNat ['4', '2'] : Nat) : Int) :=
  c4_amended.1 [' '] [' '] ['4', '2'] (by decide) (by decide) (by decide) (by decide)

/-- C8 counterexample.  A feed whose decoded header has a single column
(fewer than two) does not fail fast: the read succeeds, both data rows are
processed, and a full run over that feed completes with exit code 0.
Moreover a data line with the wrong column count is not necessarily skipped
either: a first data row one field longer than the header is kept, its extra
leading field becoming the implicit row index. -/
theorem c8_counterexample :
    read_csv ["city", "london", "paris"] =
      some { cols := ["city"], rows := [[Value.str "london"], [Value.str "paris"]] } ∧
    (sync_data { status := 200, feed := ["city", "london", "paris"], outcomes := [] }).exitCode = 0 ∧
    (sync_data { status := 200, feed := ["city", "london", "paris"], outcomes := [] }).total_uploaded = 2 ∧
    read_csv ["city", "1,london"] =
      some { cols := ["city"], rows := [[Value.str "london"]] } := by
  decide

/-- Keeping a line exactly when it is no wider than the expected width
preserves the count through the reader's padding and index-dropping. -/
theorem length_filterMap_keep (n k : Nat) (L : List String) :
    (L.filterMap (fun l =>
      if (parseLine l).length > n + k then none
      else some (((parseLine l).map cellValue ++
        List.replicate (n + k - (parseLine l).length) Value.nan).drop k))).length =
    (L.filter (fun l => decide ((parseLine l).length ≤ n + k))).length := by
  induction L with
  | nil => rfl
  | cons l L ih =>
    rw [List.filterMap_cons, List.filter_cons]
    by_cases hl : (parseLine l).length > n + k
    · have hnle : decide ((parseLine l).length ≤ n + k) = false := by
        simp only [decide_eq_false_iff_not]
        omega
      rw [if_pos hl, hnle]
      simpa using ih
    · have hle : decide ((parseLine l).length ≤ n + k) = true := by
        simp only [decide_eq_true_eq]
        omega
      rw [if_neg hl, hle]
      simpa using ih

/-- C8 (amended).  The read raises only when the feed has no non-blank line
(pandas `EmptyDataError`); with a non-blank header line it succeeds whatever
the header's width — there is no minimum-column check.  The columns are the
header's fields; the first non-blank data line is always kept, even when it
is wider than the header (its extra leading fields become the implicit row
index, fixing the expected width at header plus index); afterwards lines
wider than that expected width are skipped without being counted anywhere,
narrower lines are kept padded with missing values, and every kept row has
exactly one cell per named column. -/
theorem c8_amended :
    (∀ ls : List String, read_csv ls = none ↔ ls.filter (fun l => l != "") = []) ∧
    (∀ (hd : String) (ls : List String), hd ≠ "" →
      ∃ df, read_csv (hd :: ls) = some df ∧
        df.cols = parseLine hd ∧
        (∀ row ∈ df.rows, row.length = (parseLine hd).length) ∧
        df.rows.length =
          ((ls.filter (fun l => l != "")).filter (fun l =>
            decide ((parseLine l).length ≤ (parseLine hd).length +
              indexWidth (parseLine hd).length (ls.filter (fun l => l != ""))))).length ∧
        (∀ first rest, ls.filter (fun l => l != "") = first :: rest →
          (parseLine first).length ≤ (parseLine hd).length +
            indexWidth (parseLine hd).length (ls.filter (fun l => l != "")))) := by
  constructor
  · intro ls
    cases h : ls.filter (fun l => l != "") with
    | nil => simp [read_csv, h]
    | cons a t => simp [read_csv, h]
  · intro hd ls hne
    have hhd : (hd != "") = true := by
      simp only [bne_iff_ne, ne_eq]
      exact hne
    have hfil : (hd :: ls).filter (fun l => l != "") = hd :: ls.filter (fun l => l != "") := by
      rw [List.filter_cons, hhd]
      simp
    refine ⟨{ cols := parseLine hd
              rows := (ls.filter (fun l => l != "")).filterMap (fun l =>
                if (parseLine l).length > (parseLine hd).length +
                    indexWidth (parseLine hd).length (ls.filter (fun l => l != "")) then none
                else some (((parseLine l).map cellValue ++
                  List.replicate ((parseLine hd).length +
                    indexWidth (parseLine hd).length (ls.filter (fun l => l != "")) -
                    (parseLine l).length) Value.nan).drop
                  (indexWidth (parseLine hd).length (ls.filter (fun l => l != ""))))) },
      ?_, rfl, ?_, ?_, ?_⟩
    · simp only [read_csv, hfil]
    · intro row hrow
      rcases List.mem_filterMap.mp hrow with ⟨l, _, hfl⟩
      split at hfl
      · exact absurd hfl (by simp)
      · next hle =>
        rw [← Option.some.inj hfl, List.length_drop, List.length_append, List.length_map,
          List.length_replicate]
        omega
    · exact length_filterMap_keep (parseLine hd).length
        (indexWidth (parseLine hd).length (ls.filter (fun l => l != "")))
        (ls.filter (fun l => l != ""))
    · intro first rest hfirst
      rw [hfirst, indexWidth]
      omega

/-- C9 counterexample.  The column "price" is not the schema-declared
numeric column (only `Travel:destination_zipcode` is coerced), yet its
value is not passed through unchanged: an infinite value — which
`pd.read_csv` produces for the literal "inf" in a float column — is
rewritten to NULL by normalization. -/
theorem c9_counterexample :
    clean_dataframe { cols := ["price"], rows := [[Value.inf true]] } =
      { cols := ["price"], rows := [[Value.null]] } := by
  decide

/-- Mapping a function over an index-aware map fuses into one index-aware
map. -/
theorem map_mapIdx_fuse {a b c : Type} (g : Nat → a → b) (f : b → c) (l : List a) :
    (l.mapIdx g).map f = l.mapIdx (fun j v => f (g j v)) := by
  induction l generalizing g with
  | nil => rfl
  | cons x l ih => simp [List.mapIdx_cons, ih]

/-- An index-aware map over a mapped list fuses into one index-aware map. -/
theorem mapIdx_map_fuse {a b c : Type} (f : a → b) (g : Nat → b → c) (l : List a) :
    (l.map f).mapIdx g = l.mapIdx (fun j v => g j (f v)) := by
  induction l generalizing g with
  | nil => rfl
  | cons x l ih => simp [List.mapIdx_cons, ih]

/-- An index-aware map that ignores the index is a plain map. -/
theorem mapIdx_ignore {a b : Type} (f : a → b) (l : List a) :
    l.mapIdx (fun _ v => f v) = l.map f := by
  induction l with
  | nil => rfl
  | cons x l ih => simp [List.mapIdx_cons, ih]

/-- Per-cell characterisation of `clean_dataframe` on every dataframe: a
cell of the (first) zipcode column undergoes infinity replacement, numeric
coercion and NaN-to-NULL; every other cell undergoes only infinity
replacement and NaN-to-NULL; column names are stripped. -/
theorem clean_dataframe_cells (df : DataFrame) :
    clean_dataframe df =
      { cols := df.cols.map strip
        rows := df.rows.map (fun row => row.mapIdx (fun j v =>
          if ZIP_COL ∈ df.cols ∧ j = df.cols.findIdx (fun c => c = ZIP_COL)
          then nanToNull (to_numeric (dropInf v))
          else nanToNull (dropInf v))) } := by
  rw [clean_dataframe]
  by_cases h : ZIP_COL ∈ df.cols
  · simp only [if_pos h]
    congr 1
    rw [List.map_map, List.map_map]
    refine List.map_congr_left ?_
    intro row _
    simp only [Function.comp]
    rw [mapIdx_map_fuse, map_mapIdx_fuse]
    congr 1
    funext j v
    by_cases hj : j = df.cols.findIdx (fun c => c = ZIP_COL)
    · simp [hj, h]
    · simp [hj, h]
  · simp only [if_neg h]
    congr 1
    rw [List.map_map]
    refine List.map_congr_left ?_
    intro row _
    simp only [Function.comp]
    have hfun : (fun (j : Nat) (v : Value) =>
        if ZIP_COL ∈ df.cols ∧ j = df.cols.findIdx (fun c => c = ZIP_COL)
        then nanToNull (to_numeric (dropInf v))
        else nanToNull (dropInf v)) =
        fun (_ : Nat) (v : Value) => nanToNull (dropInf v) := by
      funext j v
      simp [h]
    rw [hfun, mapIdx_ignore, List.map_map]
    rfl

/-- C9 (amended).  For every dataframe, normalization is a per-cell map
that applies numeric coercion only to the (first) schema-declared zipcode
column; every other field is left unchanged except that infinite and NaN
values become NULL in every column, and column names are
whitespace-stripped. -/
theorem c9_amended (df : DataFrame) :
    (clean_dataframe df).cols = df.cols.map strip ∧
    (clean_dataframe df).rows = df.rows.map (fun row => row.mapIdx (fun j v =>
      if ZIP_COL ∈ df.cols ∧ j = df.cols.findIdx (fun c => c = ZIP_COL)
      then nanToNull (to_numeric (dropInf v))
      else nanToNull (dropInf v))) ∧
    (∀ v : Value, (∀ b, v ≠ Value.inf b) → v ≠ Value.nan → nanToNull (dropInf v) = v) := by
  refine ⟨?_, ?_, ?_⟩
  · rw [clean_dataframe_cells]
  · rw [clean_dataframe_cells]
  · intro v h1 h2
    cases v with
    | str s => rfl
    | num n => rfl
    | inf b => exact absurd rfl (h1 b)
    | nan => exact absurd rfl h2
    | null => rfl

/-- Witness for `c9_amended` on a dataframe that does contain the zipcode
column next to another column: the zipcode cell is coerced to a number
while the neighbouring string cell is untouched. -/
theorem c9_amended_witness :
    (clean_dataframe
      { cols := ["Travel:destination_zipcode", "price"]
        rows := [[Value.str "42", Value.str "x"]] }).rows =
      [[Value.num 42, Value.str "x"]] := by
  rw [(c9_amended
    { cols := ["Travel:destination_zipcode", "price"]
      rows := [[Value.str "42", Value.str "x"]] }).2.1]
  decide
